import Mathlib

/-!
Verification of the ABI-report generator (Scripts/abireport.py).

The script shells out to external inspection tools (file, objdump, nm,
readelf) through get_output, which returns the raw textual output of the
command and returns None (after printing a diagnostic) when the invocation
itself raises.  We embed the program shallowly: the outcome of every
external query is a field of a World oracle (Option String, none meaning
get_output returned None), and every function of the script is translated
into a Lean function over that oracle.  Filesystem enumeration (os.walk,
os.listdir) is abstracted as the list of paths the walk presents, in
presentation order, so that order-dependence can be stated and settled.
Fallible code paths (uncaught exceptions, sys.exit) are modelled with
Except: an Except.error result means the Python process terminates with a
non-zero exit status at that point.
-/

namespace Abireport

/-- Oracle for the external world: per-path filesystem predicates and the
raw output of each shell command the script runs, as returned by
get_output (none models get_output returning None because the underlying
subprocess invocation raised). -/
structure World where
  /-- os.path.exists -/
  pathExists : String → Bool
  /-- os.path.isfile -/
  isfile : String → Bool
  /-- os.path.islink -/
  islink : String → Bool
  /-- get_output of: file "path" -/
  fileOut : String → Option String
  /-- get_output of: objdump -p "path" | grep SONAME -/
  objdumpOut : String → Option String
  /-- get_output of: nm --defined-only -g --dynamic "path" -/
  nmOut : String → Option String
  /-- get_output of: readelf -d path -/
  readelfOut : String → Option String

/-! ### String primitives mirroring the Python string operations -/

/-- Does the first list start with the second (needle) list. -/
def strStarts : List Char → List Char → Bool
  | _, [] => true
  | [], _ :: _ => false
  | a :: as, b :: bs => a == b && strStarts as bs

/-- Does the haystack contain the needle as a contiguous sublist. -/
def listHasSub (needle : List Char) : List Char → Bool
  | [] => needle.isEmpty
  | c :: cs => strStarts (c :: cs) needle || listHasSub needle cs

/-- Python `needle in s` substring test. -/
def strHasSub (s needle : String) : Bool := listHasSub needle.toList s.toList

/-- Python str.strip(): drop leading and trailing whitespace. -/
def pyStrip (s : String) : String :=
  String.mk (((s.toList.dropWhile Char.isWhitespace).reverse.dropWhile
    Char.isWhitespace).reverse)

def splitLinesAux : List Char → List Char → List String
  | [], acc => [String.mk acc.reverse]
  | c :: cs, acc =>
    if c == '\n' then String.mk acc.reverse :: splitLinesAux cs []
    else splitLinesAux cs (c :: acc)

/-- Python s.split("\n"): split at every newline, keeping empty pieces. -/
def splitLines (s : String) : List String := splitLinesAux s.toList []

def pyWordsAux : List Char → List Char → List String
  | [], acc => if acc.isEmpty then [] else [String.mk acc.reverse]
  | c :: cs, acc =>
    if c.isWhitespace then
      if acc.isEmpty then pyWordsAux cs []
      else String.mk acc.reverse :: pyWordsAux cs []
    else pyWordsAux cs (c :: acc)

/-- Python s.split() with no argument: split on runs of whitespace,
producing no empty words. -/
def pyWords (s : String) : List String := pyWordsAux s.toList []

/-! ### Python string ordering and sorted()

Python compares strings lexicographically by code point; sorted() is
modelled by insertion sort over that order.  The comparison is written as
a structural Bool function so that concrete runs reduce inside the
kernel. -/

/-- Lexicographic less-or-equal on code-point lists. -/
def listLe : List Char → List Char → Bool
  | [], _ => true
  | _ :: _, [] => false
  | a :: as, b :: bs =>
    if a.toNat = b.toNat then listLe as bs
    else decide (a.toNat < b.toNat)

/-- Python string less-or-equal. -/
def strLe (a b : String) : Bool := listLe a.toList b.toList

/-- The ordering relation used for all sorted output. -/
def pyLe (a b : String) : Prop := strLe a b = true

instance pyLe.decidableRel : DecidableRel pyLe :=
  fun a b => inferInstanceAs (Decidable (strLe a b = true))

/-- Python sorted() on a list of strings. -/
def insSort (l : List String) : List String := l.insertionSort pyLe

theorem listLe_cons (a b : Char) (as bs : List Char) :
    listLe (a :: as) (b :: bs) =
      if a.toNat = b.toNat then listLe as bs else decide (a.toNat < b.toNat) :=
  rfl

theorem listLe_total : ∀ l₁ l₂ : List Char, listLe l₁ l₂ = true ∨ listLe l₂ l₁ = true
  | [], _ => Or.inl rfl
  | _ :: _, [] => Or.inr rfl
  | a :: as, b :: bs => by
    by_cases h : a.toNat = b.toNat
    · rw [listLe_cons, if_pos h, listLe_cons, if_pos h.symm]
      exact listLe_total as bs
    · rcases Nat.lt_or_ge a.toNat b.toNat with hlt | hge
      · exact Or.inl (by rw [listLe_cons, if_neg h]; exact decide_eq_true hlt)
      · have hba : b.toNat < a.toNat := lt_of_le_of_ne hge (fun e => h e.symm)
        refine Or.inr ?_
        rw [listLe_cons, if_neg (Nat.ne_of_lt hba)]
        exact decide_eq_true hba

theorem listLe_trans : ∀ l₁ l₂ l₃ : List Char,
    listLe l₁ l₂ = true → listLe l₂ l₃ = true → listLe l₁ l₃ = true
  | [], _, _, _, _ => rfl
  | _ :: _, [], _, h, _ => by simp [listLe] at h
  | _ :: _, _ :: _, [], _, h => by simp [listLe] at h
  | a :: as, b :: bs, c :: cs, h1, h2 => by
    by_cases hab : a.toNat = b.toNat <;> by_cases hbc : b.toNat = c.toNat
    · rw [listLe_cons, if_pos hab] at h1
      rw [listLe_cons, if_pos hbc] at h2
      rw [listLe_cons, if_pos (hab.trans hbc)]
      exact listLe_trans as bs cs h1 h2
    · rw [listLe_cons, if_neg hbc, decide_eq_true_eq] at h2
      have hac : a.toNat < c.toNat := hab ▸ h2
      rw [listLe_cons, if_neg (Nat.ne_of_lt hac)]
      exact decide_eq_true hac
    · rw [listLe_cons, if_neg hab, decide_eq_true_eq] at h1
      have hac : a.toNat < c.toNat := hbc ▸ h1
      rw [listLe_cons, if_neg (Nat.ne_of_lt hac)]
      exact decide_eq_true hac
    · rw [listLe_cons, if_neg hab, decide_eq_true_eq] at h1
      rw [listLe_cons, if_neg hbc, decide_eq_true_eq] at h2
      have hac : a.toNat < c.toNat := Nat.lt_trans h1 h2
      rw [listLe_cons, if_neg (Nat.ne_of_lt hac)]
      exact decide_eq_true hac

theorem listLe_antisymm : ∀ l₁ l₂ : List Char,
    listLe l₁ l₂ = true → listLe l₂ l₁ = true → l₁ = l₂
  | [], [], _, _ => rfl
  | [], _ :: _, _, h => by simp [listLe] at h
  | _ :: _, [], h, _ => by simp [listLe] at h
  | a :: as, b :: bs, h1, h2 => by
    by_cases hab : a.toNat = b.toNat
    · rw [listLe_cons, if_pos hab] at h1
      rw [listLe_cons, if_pos hab.symm] at h2
      have hchar : a = b := Char.ext (UInt32.toNat.inj hab)
      rw [hchar, listLe_antisymm as bs h1 h2]
    · rw [listLe_cons, if_neg hab, decide_eq_true_eq] at h1
      rw [listLe_cons, if_neg (fun e => hab e.symm), decide_eq_true_eq] at h2
      exact absurd h2 (Nat.lt_asymm h1)

theorem strLe_total (a b : String) : strLe a b = true ∨ strLe b a = true :=
  listLe_total a.toList b.toList

theorem strLe_trans {a b c : String} (h1 : strLe a b = true)
    (h2 : strLe b c = true) : strLe a c = true :=
  listLe_trans a.toList b.toList c.toList h1 h2

theorem strLe_antisymm {a b : String} (h1 : strLe a b = true)
    (h2 : strLe b a = true) : a = b :=
  String.toList_inj.mp (listLe_antisymm a.toList b.toList h1 h2)

instance pyLe.isTotal : IsTotal String pyLe := ⟨strLe_total⟩

instance pyLe.isTrans : IsTrans String pyLe := ⟨fun _ _ _ => strLe_trans⟩

instance pyLe.isAntisymm : IsAntisymm String pyLe := ⟨fun _ _ => strLe_antisymm⟩

theorem insSort_sorted (l : List String) : List.Sorted pyLe (insSort l) :=
  List.sorted_insertionSort pyLe l

theorem insSort_perm (l : List String) : (insSort l).Perm l :=
  List.perm_insertionSort pyLe l

/-- sorted() is a function of the multiset of its input: permuting the
input list does not change the sorted output. -/
theorem insSort_eq_of_perm {l l' : List String} (h : l.Perm l') :
    insSort l = insSort l' :=
  List.eq_of_perm_of_sorted ((insSort_perm l).trans (h.trans (insSort_perm l').symm))
    (insSort_sorted l) (insSort_sorted l')

/-- Python sorted() applied to a set, i.e. to a multiset of distinct
elements: well defined by insSort_eq_of_perm. -/
def pySortedM (m : Multiset String) : List String :=
  Quot.liftOn m insSort (fun _ _ h => insSort_eq_of_perm h)

/-- sorted() over a Python set of strings. -/
def pySorted (s : Finset String) : List String := pySortedM s.val

theorem pySorted_sorted (s : Finset String) : List.Sorted pyLe (pySorted s) := by
  rcases s with ⟨m, _⟩
  induction m using Quot.inductionOn with
  | h l => exact insSort_sorted l

theorem mem_pySorted {s : Finset String} {a : String} :
    a ∈ pySorted s ↔ a ∈ s := by
  rcases s with ⟨m, nd⟩
  induction m using Quot.inductionOn with
  | h l =>
    show a ∈ insSort l ↔ _
    rw [(insSort_perm l).mem_iff]
    exact Iff.rfl

/-! ### Constants of the script -/

/-- Conventional library directories scanned for the symbol report. -/
def valid_dirs : List String :=
  ["/usr/lib", "/usr/lib64", "/usr/lib32", "/lib", "/lib32", "/lib64"]

def wanted_symbol_types : List String := ["A", "T"]

def ignored_symbols : List String :=
  ["__bss_start", "_edata", "_end", "_fini", "_init"]

/-- Model of re.match against the pattern
`.* ELF (64|32)\-bit LSB shared object,` (the global `reg`).  On the
single-line magic strings it is applied to, a match exists exactly when
one of the two literal alternatives occurs as a substring, since the
leading greedy `.*` absorbs any preceding characters and re.match does
not require consuming the whole string. -/
def reg (mg : String) : Bool :=
  strHasSub mg " ELF 64-bit LSB shared object," ||
  strHasSub mg " ELF 32-bit LSB shared object,"

/-- Model of re.match against
`.* ELF (64|32)\-bit LSB (shared object|executable),` (`valid_dyn`),
by the same substring reading as `reg`. -/
def valid_dyn (mg : String) : Bool :=
  strHasSub mg " ELF 64-bit LSB shared object," ||
  strHasSub mg " ELF 32-bit LSB shared object," ||
  strHasSub mg " ELF 64-bit LSB executable," ||
  strHasSub mg " ELF 32-bit LSB executable,"

/-! ### Binary classifier -/

/-- get_file_magic: first line of the `file` output, stripped.  When
get_output returned None, the attribute access on None raises inside the
try block and the function returns None. -/
def get_file_magic (w : World) (path : String) : Option String :=
  (w.fileOut path).map (fun s => pyStrip ((splitLines s).headD ""))

/-- is_dynamic_binary.  Python `if not mg` is falsy for both None and the
empty string. -/
def is_dynamic_binary (w : World) (path : String) : Bool :=
  if !w.pathExists path || !w.isfile path then false
  else
    match get_file_magic w path with
    | none => false
    | some mg => if mg = "" then false else valid_dyn mg

/-- is_file_valid: rejects missing paths and symlinks before ever looking
at the magic, then requires the shared-object pattern `reg`. -/
def is_file_valid (w : World) (path : String) : Bool :=
  if !w.pathExists path || w.islink path then false
  else
    match get_file_magic w path with
    | none => false
    | some mg => if mg = "" then false else reg mg

/-- is_32bit: plain substring test "ELF 32-bit" on the magic. -/
def is_32bit (w : World) (path : String) : Bool :=
  match get_file_magic w path with
  | none => false
  | some mg => if mg = "" then false else strHasSub mg "ELF 32-bit"

/-! ### ELF fact extractor -/

/-- get_soname.  A None command output makes `"SONAME" not in line` raise
TypeError, caught by the blanket except, returning None; a line without
the SONAME marker returns None; otherwise the second whitespace-separated
word is returned (an IndexError when there is no second word is likewise
caught, returning None). -/
def get_soname (w : World) (path : String) : Option String :=
  match w.objdumpOut path with
  | none => none
  | some line =>
    if strHasSub line "SONAME" then (pyWords (pyStrip line)).get? 1
    else none

/-- One line of nm output: stripped, whitespace-split; kept only when it
has exactly three fields, the type field is a wanted kind and the symbol
field is not in the ignore list. -/
def lineSym (line : String) : Option String :=
  let spl := pyWords (pyStrip line)
  if spl.length = 3 then
    let sym_type := spl.getD 1 ""
    let sym_id := spl.getD 2 ""
    if wanted_symbol_types.contains sym_type && !(ignored_symbols.contains sym_id)
    then some sym_id else none
  else none

/-- The set of symbols dump_symbols accumulates from a given nm output. -/
def parseNm (out : String) : Finset String :=
  ((splitLines out).filterMap lineSym).toFinset

/-- dump_symbols.  When get_output yields None the subsequent
`lines.split` on None raises outside the try block (and the except branch
would call sys.exit(1) anyway): either way the Python process terminates
with a non-zero status, modelled as Except.error. -/
def dump_symbols (w : World) (path : String) : Except Unit (Finset String) :=
  match w.nmOut path with
  | none => Except.error ()
  | some out => Except.ok (parseNm out)

/-- Model of shared_lib.match(line).group(1) for the pattern
`.*Shared library: \[(.*)\].*` under re.match with greedy matching: the
literal "Shared library: [" is located at the last position that still
has a closing bracket after it, and the greedy group extends to the last
closing bracket of the line. -/
def shared_lib_group1 (line : String) : Option String :=
  let l := line.toList
  let opener := "Shared library: [".toList
  let closes := (List.range l.length).filter (fun k => l.getD k ' ' == ']')
  match closes.getLast? with
  | none => none
  | some j =>
    let opens := (List.range (l.length + 1)).filter
      (fun i => strStarts (l.drop i) opener && decide (i + opener.length ≤ j))
    match opens.getLast? with
    | none => none
    | some i =>
      some (String.mk ((l.drop (i + opener.length)).take
        (j - (i + opener.length))))

/-- get_shared_dependencies.  There is no try/except here: when
get_output returns None, `None.split` raises an uncaught AttributeError
and the process dies (Except.error); otherwise every line is stripped and
matched, collecting the bracketed dependency names into a set. -/
def get_shared_dependencies (w : World) (path : String) :
    Except Unit (Finset String) :=
  match w.readelfOut path with
  | none => Except.error ()
  | some out =>
    Except.ok (((splitLines out).filterMap
      (fun line => shared_lib_group1 (pyStrip line))).toFinset)

/-! ### Dependency pass (whole-tree walks) -/

/-- One iteration of the first loop of get_all_native_dependencies, over
one file presented by os.walk: skip non-dynamic and 32-bit files; for
files passing is_file_valid record the soname (when present) in the
provided set; every surviving dynamic binary joins the examine set. -/
def depStepN (w : World) (st : Finset String × Finset String)
    (fpath : String) : Finset String × Finset String :=
  if !is_dynamic_binary w fpath then st
  else if is_32bit w fpath then st
  else
    let st1 := if is_file_valid w fpath then
        match get_soname w fpath with
        | some soname => (insert soname st.1, st.2)
        | none => st
      else st
    if is_dynamic_binary w fpath then (st1.1, insert fpath st1.2) else st1

/-- The first loop of get_all_native_dependencies (files is the os.walk
enumeration, in presentation order). -/
def depWalkNative (w : World) (files : List String) :
    Finset String × Finset String :=
  files.foldl (depStepN w) (∅, ∅)

/-- One iteration of the first loop of get_all_32bit_dependencies:
identical to the native step except that it keeps exactly the 32-bit
files. -/
def depStep32 (w : World) (st : Finset String × Finset String)
    (fpath : String) : Finset String × Finset String :=
  if !is_dynamic_binary w fpath then st
  else if !is_32bit w fpath then st
  else
    let st1 := if is_file_valid w fpath then
        match get_soname w fpath with
        | some soname => (insert soname st.1, st.2)
        | none => st
      else st
    if is_dynamic_binary w fpath then (st1.1, insert fpath st1.2) else st1

/-- The first loop of get_all_32bit_dependencies. -/
def depWalk32 (w : World) (files : List String) :
    Finset String × Finset String :=
  files.foldl (depStep32 w) (∅, ∅)

/-- The dependency set of one examined file, with an error collapsed to ∅
(only used at call sites that have already checked for the error). -/
def depsOf (w : World) (p : String) : Finset String :=
  match get_shared_dependencies w p with
  | Except.ok s => s
  | Except.error _ => ∅

/-- Whether get_shared_dependencies succeeds on a file. -/
def depOk (w : World) (p : String) : Bool :=
  match get_shared_dependencies w p with
  | Except.ok _ => true
  | Except.error _ => false

/-- The second loop shared by both dependency walkers: for every file of
the examine set take its declared dependencies, drop the ones provided
internally (the soname set), and union the rest.  Iteration order over
the Python set is irrelevant as the result is a set union; if
get_shared_dependencies raises on any examined file the process dies. -/
def depReport (w : World) (st : Finset String × Finset String) :
    Except Unit (Finset String) :=
  if ∀ p ∈ st.2, depOk w p = true then
    Except.ok (st.2.sup (fun p => (depsOf w p).filter (fun s => s ∉ st.1)))
  else Except.error ()

def get_all_native_dependencies (w : World) (files : List String) :
    Except Unit (Finset String) :=
  depReport w (depWalkNative w files)

def get_all_32bit_dependencies (w : World) (files : List String) :
    Except Unit (Finset String) :=
  depReport w (depWalk32 w files)

/-! ### Symbol report accumulation (examine_abi scan loop) -/

/-- A Python dict keyed by Option String (a soname or None).  Key
iteration order is only ever consumed through sorted(), which raises on a
mixed None/str key set, so the keys are modelled as a None flag plus the
set of string keys, with a valuation defaulting to ∅ for absent keys
(values stored by the script are always nonempty). -/
structure PyDict where
  hasNone : Bool
  strKeys : Finset String
  val : Option String → Finset String

def emptyDict : PyDict := ⟨false, ∅, fun _ => ∅⟩

/-- `tgt[soname] = set()` when absent followed by `tgt[soname].update(symbols)`. -/
def dictUpdate (d : PyDict) (k : Option String) (v : Finset String) : PyDict :=
  { hasNone := d.hasNone || k.isNone
    strKeys := match k with
      | none => d.strKeys
      | some s => insert s d.strKeys
    val := fun k' => if k' = k then d.val k ∪ v else d.val k' }

/-- `len(tgt) > 0` is false exactly here. -/
def dictEmpty (d : PyDict) : Bool := !d.hasNone && decide (d.strKeys.card = 0)

/-- Python str() of a dict key as used by "{}:{}".format. -/
def keyStr : Option String → String
  | none => "None"
  | some s => s

/-- sorted(tgt.keys()): comparing None with a str raises TypeError, and
the dict holds at most one None key, so sorting succeeds only when the
None key is alone or absent. -/
def sortedKeys (d : PyDict) : Except Unit (List (Option String)) :=
  if d.hasNone then
    if d.strKeys.card = 0 then Except.ok [none] else Except.error ()
  else Except.ok ((pySorted d.strKeys).map some)

/-- The body of the scan loop of examine_abi for one collected library:
fetch the soname (a missing soname only prints a diagnostic), extract the
symbols (fatal on total failure), and when the symbol set is nonempty
merge it into the report of the matching bit width under the soname key. -/
def scanLib (w : World) (st : PyDict × PyDict) (library : String) :
    Except Unit (PyDict × PyDict) :=
  let soname := get_soname w library
  match dump_symbols w library with
  | Except.error e => Except.error e
  | Except.ok symbols =>
    if symbols.card = 0 then Except.ok st
    else if is_32bit w library then
      Except.ok (st.1, dictUpdate st.2 soname symbols)
    else Except.ok (dictUpdate st.1 soname symbols, st.2)

def buildReports (w : World) (libs : List String) :
    Except Unit (PyDict × PyDict) :=
  libs.foldlM (scanLib w) (emptyDict, emptyDict)

/-- The collected_files set of examine_abi, iterated in sorted order.
The per-directory os.listdir enumeration over valid_dirs with its
basename/abspath cleaning is abstracted as the input list of candidate
paths (in listing order); the script keeps exactly the paths passing
is_file_valid, as a set, and then iterates sorted(collected_files). -/
def sortedCollected (w : World) (libFiles : List String) : List String :=
  pySorted (libFiles.filter (fun p => is_file_valid w p)).toFinset

def abiDicts (w : World) (libFiles : List String) :
    Except Unit (PyDict × PyDict) :=
  buildReports w (sortedCollected w libFiles)

/-! ### Report writing -/

/-- truncate_file: returns without creating anything when the path does
not exist, otherwise truncates the file to zero length.  A file state is
modelled as Option String (none = no file at that path). -/
def truncate_file : Option String → Option String
  | none => none
  | some _ => some ""

/-- The sorted "soname:symbol" lines written for one key of a report. -/
def symLines (d : PyDict) (k : Option String) : List String :=
  (pySorted (d.val k)).map (fun sym => keyStr k ++ ":" ++ sym ++ "\n")

/-- The full text of one symbol report (keys in sorted order, symbols
sorted within each key); fails when sorted() raises on the keys. -/
def renderSym (d : PyDict) : Except Unit String :=
  (sortedKeys d).map (fun ks => String.join (ks.map (fun k =>
    String.join (symLines d k))))

/-- Writing one symbol report file: an empty report truncates the
existing file (creating nothing), otherwise the rendered text is written. -/
def writeSym (d : PyDict) (prevF : Option String) :
    Except Unit (Option String) :=
  if dictEmpty d then Except.ok (truncate_file prevF)
  else (renderSym d).map some

/-- The sorted one-name-per-line contents of a dependency report. -/
def depLines (s : Finset String) : List String :=
  (pySorted s).map (fun x => x ++ "\n")

/-- Writing one dependency report file, with the same truncate-if-empty
rule. -/
def writeDeps (s : Finset String) (prevF : Option String) : Option String :=
  if s.card = 0 then truncate_file prevF else some (String.join (depLines s))

/-- The four files of the target directory the run writes; none means the
file does not exist at that name. -/
structure OutFiles where
  abi_symbols : Option String
  abi_symbols32 : Option String
  abi_used_libs : Option String
  abi_used_libs32 : Option String
deriving DecidableEq

/-- examine_abi from the extraction of the packages onward: collect the
valid libraries of the conventional directories (libFiles is their
listing), build both symbol reports over the sorted candidates, write
the two symbol files, run both whole-tree dependency walks (treeFiles is
the os.walk enumeration), and write the two dependency files.  prev is
the prior state of the four output files in the target directory.
Except.error means the process died with a non-zero exit somewhere along
the way (whichever stage raised first; partially written files of an
aborted run are not modelled). -/
def examine_abi (w : World) (libFiles treeFiles : List String)
    (prev : OutFiles) : Except Unit OutFiles := do
  let dd ← abiDicts w libFiles
  let s64 ← writeSym dd.1 prev.abi_symbols
  let s32 ← writeSym dd.2 prev.abi_symbols32
  let d64 ← get_all_native_dependencies w treeFiles
  let d32 ← get_all_32bit_dependencies w treeFiles
  Except.ok ⟨s64, s32, writeDeps d64 prev.abi_used_libs,
    writeDeps d32 prev.abi_used_libs32⟩

/-- First report of a successful dict-building stage (for stating
properties of the scan without binding the pair). -/
def dict64 (e : Except Unit (PyDict × PyDict)) : PyDict :=
  match e with
  | Except.ok dd => dd.1
  | Except.error _ => emptyDict

/-- Second (32-bit) report of a successful dict-building stage. -/
def dict32 (e : Except Unit (PyDict × PyDict)) : PyDict :=
  match e with
  | Except.ok dd => dd.2
  | Except.error _ => emptyDict

/-! ### Closed-form characterizations of the two walk loops -/

/-- The provided-soname set the native dependency walk accumulates:
sonames of the non-32-bit dynamic binaries that also pass the
valid-shared-library check. -/
def natProvided (w : World) (files : List String) : Finset String :=
  ((files.filter (fun p =>
      is_dynamic_binary w p && !is_32bit w p && is_file_valid w p)).filterMap
    (fun p => get_soname w p)).toFinset

/-- The examine set of the native dependency walk: every non-32-bit
dynamic binary of the tree. -/
def natExamine (w : World) (files : List String) : Finset String :=
  (files.filter (fun p => is_dynamic_binary w p && !is_32bit w p)).toFinset

/-- 32-bit counterpart of natProvided. -/
def prov32 (w : World) (files : List String) : Finset String :=
  ((files.filter (fun p =>
      is_dynamic_binary w p && is_32bit w p && is_file_valid w p)).filterMap
    (fun p => get_soname w p)).toFinset

/-- 32-bit counterpart of natExamine. -/
def ex32 (w : World) (files : List String) : Finset String :=
  (files.filter (fun p => is_dynamic_binary w p && is_32bit w p)).toFinset

theorem depWalkNative_go (w : World) :
    ∀ (files : List String) (st : Finset String × Finset String),
      files.foldl (depStepN w) st =
        (st.1 ∪ natProvided w files, st.2 ∪ natExamine w files)
  | [], st => by simp [natProvided, natExamine]
  | a :: l, st => by
    rw [List.foldl_cons, depWalkNative_go w l (depStepN w st a)]
    cases hdyn : is_dynamic_binary w a with
    | false =>
      simp [depStepN, natProvided, natExamine, List.filter_cons, hdyn]
    | true =>
      cases h32 : is_32bit w a with
      | true =>
        simp [depStepN, natProvided, natExamine, List.filter_cons, hdyn, h32]
      | false =>
        cases hval : is_file_valid w a with
        | false =>
          simp [depStepN, natProvided, natExamine, List.filter_cons, hdyn,
            h32, hval, Finset.insert_union, Finset.union_insert]
        | true =>
          cases hso : get_soname w a with
          | none =>
            simp [depStepN, natProvided, natExamine, List.filter_cons,
              List.filterMap_cons, hdyn, h32, hval, hso, Finset.insert_union,
              Finset.union_insert]
          | some s =>
            simp [depStepN, natProvided, natExamine, List.filter_cons,
              List.filterMap_cons, hdyn, h32, hval, hso, Finset.insert_union,
              Finset.union_insert]

theorem depWalkNative_spec (w : World) (files : List String) :
    depWalkNative w files = (natProvided w files, natExamine w files) := by
  rw [depWalkNative, depWalkNative_go]
  simp

theorem depWalk32_go (w : World) :
    ∀ (files : List String) (st : Finset String × Finset String),
      files.foldl (depStep32 w) st =
        (st.1 ∪ prov32 w files, st.2 ∪ ex32 w files)
  | [], st => by simp [prov32, ex32]
  | a :: l, st => by
    rw [List.foldl_cons, depWalk32_go w l (depStep32 w st a)]
    cases hdyn : is_dynamic_binary w a with
    | false =>
      simp [depStep32, prov32, ex32, List.filter_cons, hdyn]
    | true =>
      cases h32 : is_32bit w a with
      | false =>
        simp [depStep32, prov32, ex32, List.filter_cons, hdyn, h32]
      | true =>
        cases hval : is_file_valid w a with
        | false =>
          simp [depStep32, prov32, ex32, List.filter_cons, hdyn, h32, hval,
            Finset.insert_union, Finset.union_insert]
        | true =>
          cases hso : get_soname w a with
          | none =>
            simp [depStep32, prov32, ex32, List.filter_cons,
              List.filterMap_cons, hdyn, h32, hval, hso, Finset.insert_union,
              Finset.union_insert]
          | some s =>
            simp [depStep32, prov32, ex32, List.filter_cons,
              List.filterMap_cons, hdyn, h32, hval, hso, Finset.insert_union,
              Finset.union_insert]

theorem depWalk32_spec (w : World) (files : List String) :
    depWalk32 w files = (prov32 w files, ex32 w files) := by
  rw [depWalk32, depWalk32_go]
  simp

theorem depReport_ok (w : World) (st : Finset String × Finset String)
    (d : Finset String) (h : depReport w st = Except.ok d) :
    d = st.2.sup (depsOf w) \ st.1 := by
  unfold depReport at h
  by_cases hall : ∀ p ∈ st.2, depOk w p = true
  · rw [if_pos hall] at h
    cases h
    ext x
    simp only [Finset.mem_sup, Finset.mem_filter, Finset.mem_sdiff]
    tauto
  · rw [if_neg hall] at h
    cases h

/-! ### Characterization of the scan loop of examine_abi -/

/-- The symbol set of a library, with the fatal case collapsed to ∅
(only used under a hypothesis that the scan succeeded). -/
def symsOf (w : World) (p : String) : Finset String :=
  match dump_symbols w p with
  | Except.ok s => s
  | Except.error _ => ∅

/-- Union of the symbol sets of all the non-32-bit files of the list
whose soname lookup gives k. -/
def sonameUnion64 (w : World) (libs : List String) (k : Option String) :
    Finset String :=
  libs.foldr (fun p acc =>
    if is_32bit w p = false ∧ get_soname w p = k then symsOf w p ∪ acc
    else acc) ∅

/-- Union of the symbol sets of all the 32-bit files of the list whose
soname lookup gives k. -/
def sonameUnion32 (w : World) (libs : List String) (k : Option String) :
    Finset String :=
  libs.foldr (fun p acc =>
    if is_32bit w p = true ∧ get_soname w p = k then symsOf w p ∪ acc
    else acc) ∅

theorem sonameUnion64_cons (w : World) (a : String) (l : List String)
    (k : Option String) :
    sonameUnion64 w (a :: l) k =
      if is_32bit w a = false ∧ get_soname w a = k then
        symsOf w a ∪ sonameUnion64 w l k
      else sonameUnion64 w l k :=
  rfl

theorem sonameUnion32_cons (w : World) (a : String) (l : List String)
    (k : Option String) :
    sonameUnion32 w (a :: l) k =
      if is_32bit w a = true ∧ get_soname w a = k then
        symsOf w a ∪ sonameUnion32 w l k
      else sonameUnion32 w l k :=
  rfl

theorem dictUpdate_val (d : PyDict) (k : Option String) (v : Finset String)
    (k' : Option String) :
    (dictUpdate d k v).val k' = if k' = k then d.val k ∪ v else d.val k' :=
  rfl

theorem scanLib_of_ok (w : World) (st : PyDict × PyDict) (a : String)
    (s : Finset String) (hd : dump_symbols w a = Except.ok s) :
    ∃ st', scanLib w st a = Except.ok st' := by
  simp only [scanLib, hd]
  split
  · exact ⟨st, rfl⟩
  · split
    · exact ⟨_, rfl⟩
    · exact ⟨_, rfl⟩

theorem buildReports_err (w : World) :
    ∀ (libs : List String) (st : PyDict × PyDict),
      (∃ p ∈ libs, dump_symbols w p = Except.error ()) →
      List.foldlM (scanLib w) st libs = Except.error ()
  | [], _, h => by simp at h
  | a :: l, st, h => by
    rcases h with ⟨p, hp, herr⟩
    rw [List.foldlM_cons]
    rcases List.mem_cons.mp hp with rfl | hmem
    · show Except.bind (scanLib w st p) _ = _
      simp only [scanLib, herr]
      rfl
    · cases hd : dump_symbols w a with
      | error e =>
        cases e
        show Except.bind (scanLib w st a) _ = _
        simp only [scanLib, hd]
        rfl
      | ok s =>
        obtain ⟨st', hst'⟩ := scanLib_of_ok w st a s hd
        show Except.bind (scanLib w st a) _ = _
        rw [hst']
        exact buildReports_err w l st' ⟨p, hmem, herr⟩

theorem buildReports_val (w : World) :
    ∀ (libs : List String) (st dd : PyDict × PyDict),
      List.foldlM (scanLib w) st libs = Except.ok dd →
      ∀ k, dd.1.val k = st.1.val k ∪ sonameUnion64 w libs k ∧
           dd.2.val k = st.2.val k ∪ sonameUnion32 w libs k
  | [], st, dd, h, k => by
    have hst : st = dd := by
      rw [List.foldlM_nil] at h
      exact Except.ok.inj h
    subst hst
    simp [sonameUnion64, sonameUnion32]
  | a :: l, st, dd, h, k => by
    rw [List.foldlM_cons] at h
    cases hd : dump_symbols w a with
    | error e =>
      rw [show (scanLib w st a >>= fun st' => List.foldlM (scanLib w) st' l)
            = Except.bind (scanLib w st a) (fun st' => List.foldlM (scanLib w) st' l)
          from rfl] at h
      simp only [scanLib, hd] at h
      cases h
    | ok s =>
      have hsyms : symsOf w a = s := by simp [symsOf, hd]
      rw [show (scanLib w st a >>= fun st' => List.foldlM (scanLib w) st' l)
            = Except.bind (scanLib w st a) (fun st' => List.foldlM (scanLib w) st' l)
          from rfl] at h
      simp only [scanLib, hd] at h
      by_cases hc : s.card = 0
      · rw [if_pos hc] at h
        have hs : s = ∅ := Finset.card_eq_zero.mp hc
        have IH := buildReports_val w l st dd h k
        refine ⟨?_, ?_⟩
        · rw [IH.1, sonameUnion64_cons]
          split
          · rw [hsyms, hs, Finset.empty_union]
          · rfl
        · rw [IH.2, sonameUnion32_cons]
          split
          · rw [hsyms, hs, Finset.empty_union]
          · rfl
      · rw [if_neg hc] at h
        by_cases h32 : is_32bit w a = true
        · rw [if_pos h32] at h
          have IH := buildReports_val w l
            (st.1, dictUpdate st.2 (get_soname w a) s) dd h k
          refine ⟨?_, ?_⟩
          · rw [IH.1, sonameUnion64_cons]
            have hne : ¬ (is_32bit w a = false ∧ get_soname w a = k) :=
              fun hh => Bool.noConfusion (h32.symm.trans hh.1)
            rw [if_neg hne]
          · rw [IH.2, sonameUnion32_cons, dictUpdate_val]
            by_cases hk : get_soname w a = k
            · have hcond : is_32bit w a = true ∧ get_soname w a = k := ⟨h32, hk⟩
              have hcond' : k = get_soname w a := hk.symm
              rw [if_pos hcond, if_pos hcond', hsyms, hk, Finset.union_assoc]
            · have hna : ¬ (is_32bit w a = true ∧ get_soname w a = k) :=
                fun hh => hk hh.2
              have hnb : ¬ (k = get_soname w a) := fun hh => hk hh.symm
              rw [if_neg hna, if_neg hnb]
        · rw [if_neg h32] at h
          have h32' : is_32bit w a = false := by
            cases hb : is_32bit w a
            · rfl
            · exact absurd hb h32
          have IH := buildReports_val w l
            (dictUpdate st.1 (get_soname w a) s, st.2) dd h k
          refine ⟨?_, ?_⟩
          · rw [IH.1, sonameUnion64_cons, dictUpdate_val]
            by_cases hk : get_soname w a = k
            · have hcond : is_32bit w a = false ∧ get_soname w a = k := ⟨h32', hk⟩
              have hcond' : k = get_soname w a := hk.symm
              rw [if_pos hcond, if_pos hcond', hsyms, hk, Finset.union_assoc]
            · have hna : ¬ (is_32bit w a = false ∧ get_soname w a = k) :=
                fun hh => hk hh.2
              have hnb : ¬ (k = get_soname w a) := fun hh => hk hh.symm
              rw [if_neg hna, if_neg hnb]
          · rw [IH.2, sonameUnion32_cons]
            have hne : ¬ (is_32bit w a = true ∧ get_soname w a = k) :=
              fun hh => Bool.noConfusion (h32'.symm.trans hh.1)
            rw [if_neg hne]

theorem bindOk {α β : Type} (a : α) (f : α → Except Unit β) :
    (Except.ok a : Except Unit α) >>= f = f a := rfl

theorem bindErr {α β : Type} (f : α → Except Unit β) :
    (Except.error () : Except Unit α) >>= f = Except.error () := rfl

/-- Destructuring a fully successful run into its five stages. -/
theorem examine_abi_ok (w : World) (libF treeF : List String)
    (prev : OutFiles) (out : OutFiles) :
    examine_abi w libF treeF prev = Except.ok out ↔
    ∃ dd s64 s32 d64 d32,
      abiDicts w libF = Except.ok dd ∧
      writeSym dd.1 prev.abi_symbols = Except.ok s64 ∧
      writeSym dd.2 prev.abi_symbols32 = Except.ok s32 ∧
      get_all_native_dependencies w treeF = Except.ok d64 ∧
      get_all_32bit_dependencies w treeF = Except.ok d32 ∧
      out = ⟨s64, s32, writeDeps d64 prev.abi_used_libs,
        writeDeps d32 prev.abi_used_libs32⟩ := by
  constructor
  · intro h
    unfold examine_abi at h
    cases e1 : abiDicts w libF with
    | error e => cases e; rw [e1, bindErr] at h; cases h
    | ok dd =>
      rw [e1] at h
      simp only [bindOk] at h
      cases e2 : writeSym dd.1 prev.abi_symbols with
      | error e => cases e; rw [e2, bindErr] at h; cases h
      | ok s64 =>
        rw [e2] at h
        simp only [bindOk] at h
        cases e3 : writeSym dd.2 prev.abi_symbols32 with
        | error e => cases e; rw [e3, bindErr] at h; cases h
        | ok s32 =>
          rw [e3] at h
          simp only [bindOk] at h
          cases e4 : get_all_native_dependencies w treeF with
          | error e => cases e; rw [e4, bindErr] at h; cases h
          | ok d64 =>
            rw [e4] at h
            simp only [bindOk] at h
            cases e5 : get_all_32bit_dependencies w treeF with
            | error e => cases e; rw [e5, bindErr] at h; cases h
            | ok d32 =>
              rw [e5] at h
              simp only [bindOk] at h
              exact ⟨dd, s64, s32, d64, d32, rfl, e2, e3, rfl, rfl,
                (Except.ok.inj h).symm⟩
  · rintro ⟨dd, s64, s32, d64, d32, h1, h2, h3, h4, h5, rfl⟩
    unfold examine_abi
    rw [h1]
    simp only [bindOk]
    rw [h2]
    simp only [bindOk]
    rw [h3]
    simp only [bindOk]
    rw [h4]
    simp only [bindOk]
    rw [h5]
    simp only [bindOk]

/-- A failed dict-building stage fails the whole run. -/
theorem examine_abi_err (w : World) (libF treeF : List String)
    (prev : OutFiles) (h : abiDicts w libF = Except.error ()) :
    examine_abi w libF treeF prev = Except.error () := by
  unfold examine_abi
  rw [h, bindErr]

/-- A valid shared library on a regular file is in particular a dynamic
binary: the shared-object magic pattern is one of the dynamic-binary
alternatives. -/
theorem valid_imp_dyn (w : World) (p : String) (hf : w.isfile p = true)
    (hv : is_file_valid w p = true) : is_dynamic_binary w p = true := by
  unfold is_file_valid at hv
  split at hv
  · cases hv
  · next hcond =>
    have hcond' : (!w.pathExists p || w.islink p) = false :=
      Bool.eq_false_iff.mpr hcond
    have hpe : w.pathExists p = true := by
      have h1 := (Bool.or_eq_false_iff.mp hcond').1
      cases hb : w.pathExists p
      · rw [hb] at h1; cases h1
      · rfl
    cases hm : get_file_magic w p with
    | none =>
      rw [hm] at hv
      change false = true at hv
      cases hv
    | some mg =>
      rw [hm] at hv
      change (if mg = "" then false else reg mg) = true at hv
      by_cases hne : mg = ""
      · rw [if_pos hne] at hv; cases hv
      · rw [if_neg hne] at hv
        unfold is_dynamic_binary
        rw [if_neg (by rw [hpe, hf]; simp), hm]
        change (if mg = "" then false else valid_dyn mg) = true
        rw [if_neg hne]
        have hv' : strHasSub mg " ELF 64-bit LSB shared object," = true ∨
            strHasSub mg " ELF 32-bit LSB shared object," = true := by
          simpa [reg] using hv
        unfold valid_dyn
        rcases hv' with h64 | h32
        · rw [h64]; rfl
        · rw [h32]; simp

/-! ### Concrete worlds for witnesses and counterexamples -/

/-- The empty prior state of the four output files. -/
def prevNone : OutFiles := ⟨none, none, none, none⟩

/-- A prior state where all four output files exist with stale content. -/
def prevOld : OutFiles := ⟨some "old", some "old", some "old", some "old"⟩

/-- A world with no observable files at all. -/
def W1 : World where
  pathExists := fun _ => false
  isfile := fun _ => false
  islink := fun _ => false
  fileOut := fun _ => none
  objdumpOut := fun _ => none
  nmOut := fun _ => none
  readelfOut := fun _ => none

/-- A world with a 64-bit dynamic executable "exe" that declares a SONAME
but is not a shared object, and a 64-bit executable "bin" that depends on
that SONAME. -/
def W2 : World where
  pathExists := fun _ => true
  isfile := fun _ => true
  islink := fun _ => false
  fileOut := fun p =>
    if p = "exe" then some "exe: ELF 64-bit LSB executable,"
    else if p = "bin" then some "bin: ELF 64-bit LSB executable,"
    else none
  objdumpOut := fun p =>
    if p = "exe" then some " SONAME libfoo.so.1" else some ""
  nmOut := fun _ => none
  readelfOut := fun p =>
    if p = "bin" then some "Shared library: [libfoo.so.1]" else some ""

/-- A world with a 64-bit shared library "lib" providing libint.so.2 and
a 64-bit executable "bin" requiring libint.so.2 and libext.so.5. -/
def W3 : World where
  pathExists := fun _ => true
  isfile := fun _ => true
  islink := fun _ => false
  fileOut := fun p =>
    if p = "lib" then some "lib: ELF 64-bit LSB shared object,"
    else if p = "bin" then some "bin: ELF 64-bit LSB executable,"
    else none
  objdumpOut := fun p =>
    if p = "lib" then some " SONAME libint.so.2" else some ""
  nmOut := fun _ => none
  readelfOut := fun p =>
    if p = "bin" then
      some "Shared library: [libint.so.2]\nShared library: [libext.so.5]"
    else some ""

/-- A world with two 64-bit shared libraries exporting symbols and two
dynamic binaries carrying dependencies, for the order-independence
witness. -/
def W4 : World where
  pathExists := fun _ => true
  isfile := fun _ => true
  islink := fun _ => false
  fileOut := fun p =>
    if p = "a" then some "a: ELF 64-bit LSB shared object,"
    else if p = "b" then some "b: ELF 64-bit LSB shared object,"
    else if p = "q" then some "q: ELF 64-bit LSB executable,"
    else if p = "r" then some "r: ELF 64-bit LSB executable,"
    else none
  objdumpOut := fun p =>
    if p = "a" then some " SONAME liba.so.1"
    else if p = "b" then some " SONAME libb.so.1"
    else some ""
  nmOut := fun p =>
    if p = "a" then some "0000 T fa"
    else if p = "b" then some "0000 A gb"
    else none
  readelfOut := fun p =>
    if p = "q" then some "Shared library: [libext.so.9]"
    else if p = "r" then some "Shared library: [liba.so.1]"
    else some ""

/-- A world with two distinct 64-bit shared libraries declaring the same
SONAME with different exported symbols. -/
def W5 : World where
  pathExists := fun _ => true
  isfile := fun _ => true
  islink := fun _ => false
  fileOut := fun p =>
    if p = "a" then some "a: ELF 64-bit LSB shared object,"
    else if p = "b" then some "b: ELF 64-bit LSB shared object,"
    else none
  objdumpOut := fun _ => some " SONAME libz.so.1"
  nmOut := fun p =>
    if p = "a" then some "0000 T f"
    else if p = "b" then some "0000 T g"
    else none
  readelfOut := fun _ => some ""

/-- A world where the symbol-extraction primitive fails on the valid
library "x". -/
def W6 : World where
  pathExists := fun _ => true
  isfile := fun _ => true
  islink := fun _ => false
  fileOut := fun _ => some "x: ELF 64-bit LSB shared object,"
  objdumpOut := fun _ => none
  nmOut := fun _ => none
  readelfOut := fun _ => some ""

/-- A world where the dependency query primitive itself fails on every
path. -/
def W7 : World where
  pathExists := fun _ => true
  isfile := fun _ => true
  islink := fun _ => false
  fileOut := fun _ => some "p: ELF 64-bit LSB executable,"
  objdumpOut := fun _ => some ""
  nmOut := fun _ => some ""
  readelfOut := fun _ => none

/-- A world where the dependency tool runs but reports an error instead
of dependency lines. -/
def W7b : World where
  pathExists := fun _ => true
  isfile := fun _ => true
  islink := fun _ => false
  fileOut := fun _ => some "p: ELF 64-bit LSB executable,"
  objdumpOut := fun _ => some ""
  nmOut := fun _ => some ""
  readelfOut := fun _ => some "readelf: Error: not an ELF file"

/-- A world where every path is a symbolic link whose magic nevertheless
matches the shared-object pattern. -/
def W9 : World where
  pathExists := fun _ => true
  isfile := fun _ => true
  islink := fun _ => true
  fileOut := fun _ => some "s: ELF 64-bit LSB shared object,"
  objdumpOut := fun _ => none
  nmOut := fun _ => none
  readelfOut := fun _ => none

/-- A world with a valid 64-bit library "a" that has symbols but no
discoverable SONAME, next to a valid 64-bit library "b" with a SONAME. -/
def W10 : World where
  pathExists := fun _ => true
  isfile := fun _ => true
  islink := fun _ => false
  fileOut := fun p =>
    if p = "a" then some "a: ELF 64-bit LSB shared object,"
    else if p = "b" then some "b: ELF 64-bit LSB shared object,"
    else none
  objdumpOut := fun p =>
    if p = "b" then some "  SONAME  libb.so.1" else some ""
  nmOut := fun p =>
    if p = "a" then some "0000 T foo"
    else if p = "b" then some "0000 T bar"
    else none
  readelfOut := fun _ => some ""

/-! ### The claims -/

/-- C6: when the symbol-extraction primitive itself fails to run on a
library (its get_output yields nothing), the whole run aborts with a
non-zero exit: dump_symbols is fatal, and a collected valid library with
a failing nm invocation makes examine_abi end in an error.  By contrast a
failing soname lookup merely yields None and the scan continues. -/
theorem c6_symbol_extraction_fatal (w : World) (p : String) :
    (w.nmOut p = none → dump_symbols w p = Except.error ()) ∧
    (w.objdumpOut p = none → get_soname w p = none) ∧
    (∀ libF treeF prev, p ∈ libF → is_file_valid w p = true →
      w.nmOut p = none → examine_abi w libF treeF prev = Except.error ()) := by
  refine ⟨?_, ?_, ?_⟩
  · intro h
    simp [dump_symbols, h]
  · intro h
    simp [get_soname, h]
  · intro libF treeF prev hmem hvalid hnm
    apply examine_abi_err
    unfold abiDicts buildReports
    apply buildReports_err
    refine ⟨p, ?_, by simp [dump_symbols, hnm]⟩
    exact mem_pySorted.mpr
      (List.mem_toFinset.mpr (List.mem_filter.mpr ⟨hmem, hvalid⟩))

theorem c6_symbol_extraction_fatal_witness :
    dump_symbols W6 "x" = Except.error () ∧
    get_soname W6 "x" = none ∧
    examine_abi W6 ["x"] [] prevNone = Except.error () := by
  have T := c6_symbol_extraction_fatal W6 "x"
  exact ⟨T.1 rfl, T.2.1 rfl, T.2.2 ["x"] [] prevNone (by simp) rfl rfl⟩

/-- C7 counterexample: when get_output for the dependency query returns
None, get_shared_dependencies does not return the empty set: the script
dereferences None and the run dies, refuting the never-raises claim. -/
theorem c7_counterexample :
    get_shared_dependencies W7 "p" = Except.error () ∧
    get_shared_dependencies W7 "p" ≠ Except.ok (∅ : Finset String) :=
  ⟨rfl, fun h => Except.noConfusion
    ((rfl : get_shared_dependencies W7 "p" = Except.error ()).symm.trans h)⟩

/-- C7 amended: get_shared_dependencies returns the empty set whenever
the tool ran but produced no line matching the shared-library pattern
(tool error text included); when the invocation primitive itself fails
(get_output returns None), the function raises instead of returning, and
the run aborts. -/
theorem c7_dependency_failure (w : World) (p : String) :
    (w.readelfOut p = none →
      get_shared_dependencies w p = Except.error ()) ∧
    (∀ s, w.readelfOut p = some s →
      (∀ line ∈ splitLines s, shared_lib_group1 (pyStrip line) = none) →
      get_shared_dependencies w p = Except.ok ∅) := by
  refine ⟨fun h => by simp [get_shared_dependencies, h], ?_⟩
  intro s hs hnone
  simp only [get_shared_dependencies, hs]
  rw [List.filterMap_eq_nil_iff.mpr hnone]
  rfl

theorem c7_dependency_failure_witness :
    get_shared_dependencies W7b "p" = Except.ok ∅ ∧
    get_shared_dependencies W7 "q" = Except.error () :=
  ⟨(c7_dependency_failure W7b "p").2 "readelf: Error: not an ELF file" rfl
      (by decide),
    (c7_dependency_failure W7 "q").1 rfl⟩

/-- C9: is_file_valid rejects every symlink (even when the magic matches
the shared-object pattern, as the witness shows), rejects missing paths
and failed magic lookups, and accepts only descriptors matching the ELF
32- or 64-bit LSB shared-object pattern. -/
theorem c9_symlink_never_valid (w : World) (p : String) :
    (w.islink p = true → is_file_valid w p = false) ∧
    (w.pathExists p = false → is_file_valid w p = false) ∧
    (get_file_magic w p = none → is_file_valid w p = false) ∧
    (is_file_valid w p = true →
      ∃ mg, get_file_magic w p = some mg ∧ reg mg = true) := by
  refine ⟨?_, ?_, ?_, ?_⟩
  · intro h
    simp [is_file_valid, h]
  · intro h
    simp [is_file_valid, h]
  · intro h
    unfold is_file_valid
    rw [h]
    split <;> rfl
  · intro h
    unfold is_file_valid at h
    split at h
    · cases h
    · cases hm : get_file_magic w p with
      | none =>
        rw [hm] at h
        change false = true at h
        cases h
      | some mg =>
        rw [hm] at h
        change (if mg = "" then false else reg mg) = true at h
        by_cases hne : mg = ""
        · rw [if_pos hne] at h; cases h
        · rw [if_neg hne] at h
          exact ⟨mg, rfl, h⟩

theorem c9_symlink_never_valid_witness :
    is_file_valid W9 "s" = false ∧
    get_file_magic W9 "s" = some "s: ELF 64-bit LSB shared object," ∧
    reg "s: ELF 64-bit LSB shared object," = true :=
  ⟨(c9_symlink_never_valid W9 "s").1 rfl, rfl, by decide⟩

/-- C8: a symbol-table entry survives into the report set exactly when
its stripped line splits into exactly three whitespace fields, the kind
field is a wanted kind, the name field is the symbol, and the symbol is
not on the ignore list; in particular the five ignored bookkeeping names
never appear, and malformed lines contribute nothing. -/
theorem c8_symbol_filter (out s : String) :
    (s ∈ parseNm out ↔ ∃ line ∈ splitLines out, lineSym line = some s) ∧
    (∀ line : String, lineSym line = some s ↔
      ((pyWords (pyStrip line)).length = 3 ∧
        wanted_symbol_types.contains ((pyWords (pyStrip line)).getD 1 "") = true ∧
        (pyWords (pyStrip line)).getD 2 "" = s ∧
        ignored_symbols.contains s = false)) ∧
    ("__bss_start" ∉ parseNm out ∧ "_edata" ∉ parseNm out ∧
      "_end" ∉ parseNm out ∧ "_fini" ∉ parseNm out ∧ "_init" ∉ parseNm out) := by
  have h1 : ∀ t : String, t ∈ parseNm out ↔
      ∃ line ∈ splitLines out, lineSym line = some t := by
    intro t
    unfold parseNm
    rw [List.mem_toFinset, List.mem_filterMap]
  have h2 : ∀ (t line : String), lineSym line = some t →
      ((pyWords (pyStrip line)).length = 3 ∧
        wanted_symbol_types.contains ((pyWords (pyStrip line)).getD 1 "") = true ∧
        (pyWords (pyStrip line)).getD 2 "" = t ∧
        ignored_symbols.contains t = false) := by
    intro t line h
    unfold lineSym at h
    by_cases hlen : (pyWords (pyStrip line)).length = 3
    · rw [if_pos hlen] at h
      by_cases hcond : (wanted_symbol_types.contains
            ((pyWords (pyStrip line)).getD 1 "") &&
          !(ignored_symbols.contains ((pyWords (pyStrip line)).getD 2 ""))) = true
      · rw [if_pos hcond] at h
        have hid : (pyWords (pyStrip line)).getD 2 "" = t := Option.some.inj h
        obtain ⟨hw, hn⟩ := Bool.and_eq_true_iff.mp hcond
        refine ⟨hlen, hw, hid, ?_⟩
        rw [← hid]
        cases hb : ignored_symbols.contains ((pyWords (pyStrip line)).getD 2 "")
        · rfl
        · rw [hb] at hn
          exact absurd hn (by decide)
      · rw [if_neg hcond] at h
        cases h
    · rw [if_neg hlen] at h
      cases h
  have h3 : ∀ (t line : String),
      ((pyWords (pyStrip line)).length = 3 ∧
        wanted_symbol_types.contains ((pyWords (pyStrip line)).getD 1 "") = true ∧
        (pyWords (pyStrip line)).getD 2 "" = t ∧
        ignored_symbols.contains t = false) → lineSym line = some t := by
    rintro t line ⟨hlen, hw, hid, hig⟩
    unfold lineSym
    rw [if_pos hlen, hid, if_pos (by rw [hw, hig]; rfl)]
  have hig : ∀ t : String, ignored_symbols.contains t = true →
      t ∉ parseNm out := by
    intro t hc hmem
    obtain ⟨line, _, hl⟩ := (h1 t).mp hmem
    have := (h2 t line hl).2.2.2
    rw [hc] at this
    cases this
  exact ⟨h1 s, fun line => ⟨h2 s line, h3 s line⟩,
    hig "__bss_start" (by decide), hig "_edata" (by decide),
    hig "_end" (by decide), hig "_fini" (by decide),
    hig "_init" (by decide)⟩

theorem c8_symbol_filter_witness :
    "foo" ∈ parseNm "0000 T foo" ∧
    "__bss_start" ∉ parseNm "0000 T __bss_start" ∧
    "bar" ∉ parseNm "0000 w bar" ∧
    "baz" ∉ parseNm "0000 T baz extra" := by
  refine ⟨?_, (c8_symbol_filter "0000 T __bss_start" "x").2.2.1,
    by decide, by decide⟩
  exact (c8_symbol_filter "0000 T foo" "foo").1.mpr
    ⟨"0000 T foo", by decide, by decide⟩

/-- C2 counterexample: "exe" is a 64-bit dynamic binary (an executable)
declaring SONAME libfoo.so.1, yet the provided set of the native walk
does not contain that SONAME, because soname collection is gated on the
valid-shared-library check; consequently a dependency on libfoo.so.1
survives the internal-provider subtraction. -/
theorem c2_counterexample :
    is_dynamic_binary W2 "exe" = true ∧
    is_32bit W2 "exe" = false ∧
    get_soname W2 "exe" = some "libfoo.so.1" ∧
    "libfoo.so.1" ∉ (depWalkNative W2 ["exe", "bin"]).1 ∧
    get_all_native_dependencies W2 ["exe", "bin"] =
      Except.ok {"libfoo.so.1"} :=
  ⟨rfl, rfl, rfl, by decide, rfl⟩

/-- C2 amended: the per-bit-width provided-SONAME set collected by the
dependency walks contains exactly the sonames of the dynamic binaries of
that bit-width that also pass the valid-shared-library check; sonames of
invalid (non-shared-object) dynamic binaries such as executables are not
collected, although the walk does span the whole tree. -/
theorem c2_provided_set (w : World) (files : List String) :
    (depWalkNative w files).1 =
      ((files.filter (fun p =>
        is_dynamic_binary w p && !is_32bit w p && is_file_valid w p)).filterMap
        (fun p => get_soname w p)).toFinset ∧
    (depWalk32 w files).1 =
      ((files.filter (fun p =>
        is_dynamic_binary w p && is_32bit w p && is_file_valid w p)).filterMap
        (fun p => get_soname w p)).toFinset := by
  rw [depWalkNative_spec, depWalk32_spec]
  exact ⟨rfl, rfl⟩

/-- C3: whenever a dependency pass completes, its report equals the union
of the declared dependencies of all dynamic binaries of that bit width
minus the SONAMEs provided internally for that bit width; in particular
no reported name equals a SONAME declared by a valid shared library (on a
regular file) of the same bit width anywhere in the walked tree. -/
theorem c3_dependency_subtraction (w : World) (files : List String) :
    (∀ d, get_all_native_dependencies w files = Except.ok d →
      d = (natExamine w files).sup (depsOf w) \ natProvided w files ∧
      ∀ p ∈ files, w.isfile p = true → is_file_valid w p = true →
        is_32bit w p = false → ∀ s, get_soname w p = some s → s ∉ d) ∧
    (∀ d, get_all_32bit_dependencies w files = Except.ok d →
      d = (ex32 w files).sup (depsOf w) \ prov32 w files ∧
      ∀ p ∈ files, w.isfile p = true → is_file_valid w p = true →
        is_32bit w p = true → ∀ s, get_soname w p = some s → s ∉ d) := by
  constructor
  · intro d h
    have hd : d = (natExamine w files).sup (depsOf w) \ natProvided w files := by
      have h' := depReport_ok w (depWalkNative w files) d h
      rw [depWalkNative_spec] at h'
      exact h'
    refine ⟨hd, ?_⟩
    intro p hp hf hv h32 s hs
    have hdyn := valid_imp_dyn w p hf hv
    have hmemf : p ∈ files.filter (fun q =>
        is_dynamic_binary w q && !is_32bit w q && is_file_valid w q) :=
      List.mem_filter.mpr ⟨hp, by rw [hdyn, h32, hv]; rfl⟩
    have hprov : s ∈ natProvided w files :=
      List.mem_toFinset.mpr (List.mem_filterMap.mpr ⟨p, hmemf, hs⟩)
    rw [hd]
    intro hin
    exact (Finset.mem_sdiff.mp hin).2 hprov
  · intro d h
    have hd : d = (ex32 w files).sup (depsOf w) \ prov32 w files := by
      have h' := depReport_ok w (depWalk32 w files) d h
      rw [depWalk32_spec] at h'
      exact h'
    refine ⟨hd, ?_⟩
    intro p hp hf hv h32 s hs
    have hdyn := valid_imp_dyn w p hf hv
    have hmemf : p ∈ files.filter (fun q =>
        is_dynamic_binary w q && is_32bit w q && is_file_valid w q) :=
      List.mem_filter.mpr ⟨hp, by rw [hdyn, h32, hv]; rfl⟩
    have hprov : s ∈ prov32 w files :=
      List.mem_toFinset.mpr (List.mem_filterMap.mpr ⟨p, hmemf, hs⟩)
    rw [hd]
    intro hin
    exact (Finset.mem_sdiff.mp hin).2 hprov

theorem c3_dependency_subtraction_witness :
    get_all_native_dependencies W3 ["lib", "bin"] = Except.ok {"libext.so.5"} ∧
    "libint.so.2" ∉ ({"libext.so.5"} : Finset String) := by
  refine ⟨rfl, ?_⟩
  exact ((c3_dependency_subtraction W3 ["lib", "bin"]).1 {"libext.so.5"}
    rfl).2 "lib" (by simp) rfl rfl rfl "libint.so.2" rfl

/-- C5: after a successful scan, each report entry is the set union of
the symbol sets of every collected file of that bit width whose soname
lookup gives that key — merged across files that share a SONAME, with set
semantics — and the lines written for that key render exactly that union
in sorted order. -/
theorem c5_soname_merge (w : World) (L : List String)
    (dd : PyDict × PyDict) (h : abiDicts w L = Except.ok dd)
    (k : Option String) :
    dd.1.val k = sonameUnion64 w (sortedCollected w L) k ∧
    dd.2.val k = sonameUnion32 w (sortedCollected w L) k ∧
    symLines dd.1 k = (pySorted (dd.1.val k)).map
      (fun sym => keyStr k ++ ":" ++ sym ++ "\n") := by
  unfold abiDicts buildReports at h
  have H := buildReports_val w (sortedCollected w L)
    (emptyDict, emptyDict) dd h k
  refine ⟨?_, ?_, rfl⟩
  · rw [H.1]
    show ∅ ∪ _ = _
    exact Finset.empty_union _
  · rw [H.2]
    show ∅ ∪ _ = _
    exact Finset.empty_union _

theorem c5_soname_merge_witness :
    (dict64 (abiDicts W5 ["a", "b"])).val (some "libz.so.1") =
      sonameUnion64 W5 (sortedCollected W5 ["a", "b"]) (some "libz.so.1") ∧
    (dict64 (abiDicts W5 ["a", "b"])).val (some "libz.so.1") = {"f", "g"} := by
  have h : abiDicts W5 ["a", "b"] =
      Except.ok (dict64 (abiDicts W5 ["a", "b"]),
        dict32 (abiDicts W5 ["a", "b"])) := rfl
  exact ⟨(c5_soname_merge W5 ["a", "b"] _ h (some "libz.so.1")).1, by decide⟩

/-- C10 counterexample: the run with the soname-less library "a" (with
symbols) alongside the soname-bearing library "b" does not reach a write
of the null key alongside string SONAMEs: sorting the mixed None/str key
set raises, so the run aborts with an error instead. -/
theorem c10_counterexample :
    get_soname W10 "a" = none ∧
    dump_symbols W10 "a" = Except.ok {"foo"} ∧
    examine_abi W10 ["a", "b"] [] prevNone = Except.error () :=
  ⟨rfl, rfl, rfl⟩

/-- C10 amended: a collected valid library without a discoverable SONAME
but with a nonempty symbol set does not abort the scan: its symbols are
merged into the matching report under the None key.  At the Write step,
however, the None key survives sorting only when it is the sole key of
its report (rendered through str() as "None"); when string SONAMEs are
present in the same report, sorted() over the mixed key set raises and
the run aborts. -/
theorem c10_null_soname (w : World) (st : PyDict × PyDict) (lib : String)
    (s : Finset String) (hso : get_soname w lib = none)
    (hdump : dump_symbols w lib = Except.ok s) (hne : ¬ s.card = 0)
    (h32 : is_32bit w lib = false) :
    scanLib w st lib = Except.ok (dictUpdate st.1 none s, st.2) ∧
    (dictUpdate st.1 none s).val none = st.1.val none ∪ s ∧
    (dictUpdate st.1 none s).hasNone = true ∧
    (∀ d : PyDict, d.hasNone = true → ¬ d.strKeys.card = 0 →
      sortedKeys d = Except.error ()) ∧
    (∀ d : PyDict, d.hasNone = true → d.strKeys.card = 0 →
      sortedKeys d = Except.ok [none]) ∧
    keyStr none = "None" := by
  refine ⟨?_, ?_, ?_, ?_, ?_, rfl⟩
  · simp only [scanLib, hdump]
    rw [if_neg hne, if_neg (by rw [h32]; simp), hso]
  · rw [dictUpdate_val, if_pos rfl]
  · simp [dictUpdate]
  · intro d h1 h2
    unfold sortedKeys
    rw [if_pos h1, if_neg h2]
  · intro d h1 h2
    unfold sortedKeys
    rw [if_pos h1, if_pos h2]

theorem c10_null_soname_witness :
    scanLib W10 (emptyDict, emptyDict) "a" =
      Except.ok (dictUpdate emptyDict none {"foo"}, emptyDict) ∧
    (dictUpdate emptyDict none {"foo"}).val none =
      emptyDict.val none ∪ {"foo"} ∧
    sortedKeys (dictUpdate (dictUpdate emptyDict none {"foo"})
      (some "libb.so.1") {"bar"}) = Except.error () := by
  have T := c10_null_soname W10 (emptyDict, emptyDict) "a" {"foo"} rfl rfl
    (by decide) rfl
  exact ⟨T.1, T.2.1, T.2.2.2.1 _ (by decide) (by decide)⟩

/-- C1 counterexample: a fully successful run whose reports are all empty
leaves a previously nonexistent abi_symbols file nonexistent —
truncate_file returns without creating anything — refuting the claim that
a file of the expected name always exists after the run. -/
theorem c1_counterexample :
    ¬ (∀ out : OutFiles, examine_abi W1 [] [] prevNone = Except.ok out →
        out.abi_symbols = some "") := by
  intro h
  have := h ⟨none, none, none, none⟩ rfl
  cases this

/-- C1 amended: in every run that completes the Write step, an empty
report truncates the corresponding output file to zero length when a
file of that name already exists, and leaves the name absent otherwise
(truncate_file returns early on a nonexistent path, creating nothing). -/
theorem c1_truncate_if_empty (w : World) (libF treeF : List String)
    (prev out : OutFiles)
    (h : examine_abi w libF treeF prev = Except.ok out) :
    (dictEmpty (dict64 (abiDicts w libF)) = true →
      out.abi_symbols = truncate_file prev.abi_symbols) ∧
    (dictEmpty (dict32 (abiDicts w libF)) = true →
      out.abi_symbols32 = truncate_file prev.abi_symbols32) ∧
    (get_all_native_dependencies w treeF = Except.ok ∅ →
      out.abi_used_libs = truncate_file prev.abi_used_libs) ∧
    (get_all_32bit_dependencies w treeF = Except.ok ∅ →
      out.abi_used_libs32 = truncate_file prev.abi_used_libs32) := by
  obtain ⟨dd, s64, s32, d64, d32, h1, h2, h3, h4, h5, rfl⟩ :=
    (examine_abi_ok w libF treeF prev out).mp h
  refine ⟨?_, ?_, ?_, ?_⟩
  · intro hde
    rw [h1] at hde
    have hde' : dictEmpty dd.1 = true := hde
    unfold writeSym at h2
    rw [if_pos hde'] at h2
    exact (Except.ok.inj h2).symm
  · intro hde
    rw [h1] at hde
    have hde' : dictEmpty dd.2 = true := hde
    unfold writeSym at h3
    rw [if_pos hde'] at h3
    exact (Except.ok.inj h3).symm
  · intro hd
    have he : d64 = ∅ := Except.ok.inj (h4.symm.trans hd)
    show writeDeps d64 prev.abi_used_libs = _
    rw [he]
    unfold writeDeps
    rw [if_pos (by simp : (∅ : Finset String).card = 0)]
  · intro hd
    have he : d32 = ∅ := Except.ok.inj (h5.symm.trans hd)
    show writeDeps d32 prev.abi_used_libs32 = _
    rw [he]
    unfold writeDeps
    rw [if_pos (by simp : (∅ : Finset String).card = 0)]

theorem c1_truncate_if_empty_witness :
    examine_abi W1 [] [] prevOld =
      Except.ok ⟨some "", some "", some "", some ""⟩ ∧
    (⟨some "", some "", some "", some ""⟩ : OutFiles).abi_symbols =
      truncate_file prevOld.abi_symbols :=
  ⟨rfl, (c1_truncate_if_empty W1 [] [] prevOld
    ⟨some "", some "", some "", some ""⟩ rfl).1 rfl⟩

/-- C4: the whole pipeline is a function of the sets the filesystem
presents, not of their enumeration order: permuting the library-directory
listing and the tree walk yields identical results (hence byte-identical
files on every rerun over unchanged inputs), and everything written is
emitted in sorted order — dependency names sorted, SONAME keys sorted,
and symbols sorted within each SONAME. -/
theorem c4_order_independence (w : World) (libF libF' treeF treeF' : List String)
    (prev : OutFiles) (hl : libF.Perm libF') (ht : treeF.Perm treeF') :
    examine_abi w libF treeF prev = examine_abi w libF' treeF' prev ∧
    (∀ d : Finset String,
      depLines d = (pySorted d).map (fun x => x ++ "\n") ∧
      List.Sorted pyLe (pySorted d)) ∧
    (∀ (dct : PyDict) (k : Option String),
      symLines dct k = (pySorted (dct.val k)).map
        (fun sym => keyStr k ++ ":" ++ sym ++ "\n") ∧
      List.Sorted pyLe (pySorted (dct.val k))) ∧
    (∀ (dct : PyDict) (ks : List (Option String)),
      sortedKeys dct = Except.ok ks → List.Sorted pyLe (ks.filterMap id)) := by
  refine ⟨?_, fun d => ⟨rfl, pySorted_sorted d⟩,
    fun dct k => ⟨rfl, pySorted_sorted _⟩, ?_⟩
  · have hc : (libF.filter (fun p => is_file_valid w p)).toFinset =
        (libF'.filter (fun p => is_file_valid w p)).toFinset :=
      List.toFinset_eq_of_perm _ _ (hl.filter _)
    have hsc : sortedCollected w libF = sortedCollected w libF' := by
      unfold sortedCollected
      rw [hc]
    have ha : abiDicts w libF = abiDicts w libF' := by
      unfold abiDicts
      rw [hsc]
    have hn : get_all_native_dependencies w treeF =
        get_all_native_dependencies w treeF' := by
      unfold get_all_native_dependencies
      rw [depWalkNative_spec, depWalkNative_spec]
      have h1 : natProvided w treeF = natProvided w treeF' := by
        unfold natProvided
        exact List.toFinset_eq_of_perm _ _ ((ht.filter _).filterMap _)
      have h2 : natExamine w treeF = natExamine w treeF' := by
        unfold natExamine
        exact List.toFinset_eq_of_perm _ _ (ht.filter _)
      rw [h1, h2]
    have h3 : get_all_32bit_dependencies w treeF =
        get_all_32bit_dependencies w treeF' := by
      unfold get_all_32bit_dependencies
      rw [depWalk32_spec, depWalk32_spec]
      have h1 : prov32 w treeF = prov32 w treeF' := by
        unfold prov32
        exact List.toFinset_eq_of_perm _ _ ((ht.filter _).filterMap _)
      have h2 : ex32 w treeF = ex32 w treeF' := by
        unfold ex32
        exact List.toFinset_eq_of_perm _ _ (ht.filter _)
      rw [h1, h2]
    unfold examine_abi
    rw [ha, hn, h3]
  · intro dct ks hks
    unfold sortedKeys at hks
    by_cases h1 : dct.hasNone = true
    · rw [if_pos h1] at hks
      by_cases h2 : dct.strKeys.card = 0
      · rw [if_pos h2] at hks
        rw [← Except.ok.inj hks]
        exact List.sorted_nil
      · rw [if_neg h2] at hks
        cases hks
    · rw [if_neg h1] at hks
      rw [← Except.ok.inj hks]
      have : (((pySorted dct.strKeys).map some).filterMap id) =
          pySorted dct.strKeys := by
        rw [List.filterMap_map]
        simp
      rw [this]
      exact pySorted_sorted _

theorem c4_order_independence_witness :
    examine_abi W4 ["b", "a"] ["q", "r"] prevNone =
      examine_abi W4 ["a", "b"] ["r", "q"] prevNone :=
  (c4_order_independence W4 ["b", "a"] ["a", "b"] ["q", "r"] ["r", "q"]
    prevNone (List.Perm.swap "a" "b" []) (List.Perm.swap "r" "q" [])).1

end Abireport
